import Mathlib

/-!
Verification of the MosaicGrid masonry layout component of
static/js/history-page.js (class MosaicGrid, the third script in that file).

The component is embedded shallowly: JS numbers are exact rationals, with
WithTop ℚ standing for values that can be Infinity (the initial minHeight of
the placement search); DOM state is a record. Methods become pure functions
on that record. Methods that dereference this.container, which is null when
the configured element is absent, are additionally wrapped as Except-valued
functions so that a thrown TypeError is observable.
-/

namespace MosaicGrid

/-- JS number as it occurs in the layout engine: a finite rational or
Infinity. Addition and max on WithTop agree with JS arithmetic on these
values (Infinity + x = Infinity, Math.max(Infinity, x) = Infinity). -/
abbrev JsNum := WithTop ℚ

/-- parseInt applied to the px string serialized from the finite number q:
the integer part of q, truncating toward zero. -/
def jsParseInt (q : ℚ) : ℤ := if 0 ≤ q then ⌊q⌋ else -⌊-q⌋

/-- the JS idiom (v || d): d when v is absent or 0 (falsy), else v. -/
def jsOr (v : Option ℚ) (d : ℚ) : ℚ :=
  match v with
  | none => d
  | some x => if x = 0 then d else x

/-- GridConfig: this.options as built in the constructor. -/
structure Options where
  baseColumnWidth : ℚ
  gap : ℚ
deriving DecidableEq

/-- constructor lines: baseColumnWidth = options.columnWidth || 250,
gap = options.gap || 20. -/
def mkOptions (columnWidth? gap? : Option ℚ) : Options :=
  { baseColumnWidth := jsOr columnWidth? 250, gap := jsOr gap? 20 }

/-- GridItem: one mosaic-item wrapper div. width and height are the values
written to style.width and style.height (in px); columnSpan is
dataset.columnSpan; tx and ty are the translate(x, y) of style.transform,
ty being a JsNum because reflow writes Infinity there when no legal start
column exists. -/
structure Item where
  width : ℚ
  height : ℚ
  columnSpan : ℕ
  tx : ℚ
  ty : JsNum
deriving DecidableEq

/-- the grid state behind a non-null container: container.offsetWidth, the
container's style.height, this.options, this.items in DOM order, the
columnWidth captured by the closures of addItems, and this.loadedImages. -/
structure Grid where
  containerWidth : ℚ
  containerHeight : JsNum
  options : Options
  items : List Item
  capturedColumnWidth : ℚ
  loadedImages : ℕ
deriving DecidableEq

/-- calculateColumnWidth(): minColumns = floor((containerWidth + gap) /
(baseColumnWidth + gap)); if minColumns < 1 the base width is returned,
else the width that makes minColumns columns fill the container exactly. -/
def calculateColumnWidth (g : Grid) : ℚ :=
  let containerWidth := g.containerWidth
  let minColumns : ℤ :=
    ⌊(containerWidth + g.options.gap) / (g.options.baseColumnWidth + g.options.gap)⌋
  if minColumns < 1 then g.options.baseColumnWidth
  else (containerWidth - ((minColumns : ℚ) - 1) * g.options.gap) / (minColumns : ℚ)

/-- the inline expression Math.floor((containerWidth + gap) / (columnWidth +
gap)) that reflow() and handleImageLoad() both compute with columnWidth =
calculateColumnWidth(). -/
def numColumnsZ (g : Grid) : ℤ :=
  ⌊(g.containerWidth + g.options.gap) / (calculateColumnWidth g + g.options.gap)⌋

/-- reflow() line: const itemHeight = parseInt(item.style.height) || columnWidth. -/
def effHeight (columnWidth : ℚ) (it : Item) : ℚ :=
  let p := jsParseInt it.height
  if p = 0 then columnWidth else (p : ℚ)

/-- reflow() line: const columnSpan = parseInt(item.dataset.columnSpan) || 1.
dataset.columnSpan always holds a natural number here, so only 0 is falsy. -/
def effSpan (it : Item) : ℕ :=
  if it.columnSpan = 0 then 1 else it.columnSpan

/-- the inner loop of reflow() that takes the maximum of columnHeights over
the span columns starting at col, beginning from let maxHeight = 0. Out of
range reads cannot occur for the start columns the search visits. -/
def spanMax (heights : List JsNum) (col span : ℕ) : JsNum :=
  (List.range span).foldl (fun m s => max m (heights.getD (col + s) 0)) 0

/-- the search loop of reflow(): starting from bestColumn = 0 and
minHeight = Infinity, visit each start column in order and keep the first
one whose spanned maximum is a strict improvement. -/
def chooseBest (f : ℕ → JsNum) (k : ℕ) : ℕ × JsNum :=
  (List.range k).foldl (fun acc col => if f col < acc.2 then (col, f col) else acc) (0, ⊤)

/-- a JS array write columnHeights[i] = v: in range it updates, one past the
end it appends (the only out-of-range index the update loop can produce,
since its writes are consecutive from bestColumn); further indices are
unreachable and left unchanged. -/
def setH (heights : List JsNum) (i : ℕ) (v : JsNum) : List JsNum :=
  if i < heights.length then heights.set i v
  else if i = heights.length then heights ++ [v]
  else heights

/-- the update loop of reflow(): columnHeights[bestColumn + s] =
minHeight + itemHeight + gap for s = 0 .. columnSpan - 1. -/
def updateHeights (heights : List JsNum) (col span : ℕ) (v : JsNum) : List JsNum :=
  (List.range span).foldl (fun hs s => setH hs (col + s) v) heights

/-- the body of this.items.forEach in reflow(): place one item, record the
bestColumn it got together with its updated wrapper, and update the column
heights. -/
def placeItem (gap columnWidth : ℚ) (numColumns : ℕ)
    (st : List JsNum × List (ℕ × Item)) (it : Item) : List JsNum × List (ℕ × Item) :=
  let itemHeight := effHeight columnWidth it
  let span := effSpan it
  let best := chooseBest (fun col => spanMax st.1 col span) (numColumns + 1 - span)
  let x := (best.1 : ℚ) * (columnWidth + gap)
  let y := best.2
  let newHeights := updateHeights st.1 best.1 span (y + (itemHeight : JsNum) + (gap : JsNum))
  (newHeights, st.2 ++ [(best.1, { it with tx := x, ty := y })])

/-- Math.max(...columnHeights) on the non-empty array reflow() builds. -/
def jsMaxList (l : List JsNum) : JsNum :=
  match l with
  | [] => 0
  | h :: t => t.foldl max h

/-- the forEach of reflow() run over all items, starting from
new Array(numColumns).fill(0) and an empty placement record. -/
def reflowCore (g : Grid) (numColumns : ℕ) : List JsNum × List (ℕ × Item) :=
  g.items.foldl (placeItem g.options.gap (calculateColumnWidth g) numColumns)
    (List.replicate numColumns (0 : JsNum), [])

/-- reflow(): recompute numColumns, return unchanged if numColumns < 1, else
position every item and set the container height to the tallest column. -/
def reflow (g : Grid) : Grid :=
  let n := numColumnsZ g
  if n < 1 then g
  else
    let res := reflowCore g n.toNat
    { g with items := (res.2.map Prod.snd), containerHeight := jsMaxList res.1 }

/-- addItems(memes, createCardFn): empty the container, rebuild this.items
with every wrapper at the initial columnWidth square size and
dataset.columnSpan = 1, remember the closure's columnWidth, and reflow.
Image load and error callbacks are modeled as the separate events below. -/
def addItems (g : Grid) (numItems : ℕ) : Grid :=
  let columnWidth := calculateColumnWidth g
  reflow { g with
    items := List.replicate numItems
      { width := columnWidth, height := columnWidth, columnSpan := 1, tx := 0, ty := 0 },
    loadedImages := 0,
    capturedColumnWidth := columnWidth }

/-- pointwise update of one list entry, used for the wrapper an image event
targets. -/
def modifyIdx {α : Type} : List α → ℕ → (α → α) → List α
  | [], _, _ => []
  | a :: rest, 0, f => f a :: rest
  | a :: rest, n + 1, f => a :: modifyIdx rest n f

/-- the sequential span reassignment of handleImageLoad: columnSpan starts
at 1, becomes Math.min(2, numColumns) when the aspect exceeds 1.7, and
Math.min(3, numColumns) when the aspect exceeds 2.5 with at least three
columns. -/
def loadSpan (aspect : ℚ) (n : ℤ) : ℤ :=
  let span0 : ℤ := 1
  let span1 : ℤ := if aspect > 17 / 10 then min 2 n else span0
  if aspect > 5 / 2 ∧ 3 ≤ n then min 3 n else span1

/-- the state update of handleImageLoad for a positive natural height:
store the span on the wrapper and size it to span columns at the image
aspect. numColumns is never negative here, so storing with toNat is
exact. -/
def applyLoad (g1 : Grid) (i : ℕ) (aspect : ℚ) : Grid :=
  let columnWidth := calculateColumnWidth g1
  let numColumns := numColumnsZ g1
  let span2 := loadSpan aspect numColumns
  let itemWidth := columnWidth * (span2 : ℚ) + g1.options.gap * ((span2 : ℚ) - 1)
  let itemHeight := itemWidth / aspect
  { g1 with items := modifyIdx g1.items i (fun it =>
      { it with columnSpan := span2.toNat, width := itemWidth, height := itemHeight }) }

/-- handleImageLoad(img, wrapper): bump loadedImages; if the natural height
is positive, derive the aspect from naturalWidth / naturalHeight and apply
the span and size update; reflow either way. -/
def handleImageLoad (g : Grid) (i : ℕ) (naturalWidth naturalHeight : ℕ) : Grid :=
  let g1 := { g with loadedImages := g.loadedImages + 1 }
  if 0 < naturalHeight then
    reflow (applyLoad g1 i ((naturalWidth : ℚ) / (naturalHeight : ℚ)))
  else reflow g1

/-- what the error listener writes on the wrapper: the square footprint at
the columnWidth the addItems closure captured. -/
def errReset (g : Grid) (it : Item) : Item :=
  { it with width := g.capturedColumnWidth, height := g.capturedColumnWidth }

/-- the error listener addItems registers: reset the wrapper to the default
square footprint, then reflow. -/
def handleImageError (g : Grid) (i : ℕ) : Grid :=
  reflow { g with items := modifyIdx g.items i (errReset g) }

/-- clear(): empty the container and the item list; the container's height
style is left as it is. -/
def clear (g : Grid) : Grid :=
  { g with items := [], loadedImages := 0 }

/-- a MosaicGrid object: container is null when getElementById found
nothing, in which case init() has logged and returned without setting up. -/
inductive GridRef where
  | noContainer (options : Options)
  | live (g : Grid)
deriving DecidableEq

/-- the thrown JS error a wrapped method can surface. -/
inductive JsError where
  | typeError
deriving DecidableEq

/-- new MosaicGrid(containerId, options) followed by init(): with a missing
container the instance survives but init logs and does nothing; otherwise
styles and the resize listener are set up on the found element. -/
def construct (containerEl : Option ℚ) (columnWidth? gap? : Option ℚ) : GridRef :=
  match containerEl with
  | none => .noContainer (mkOptions columnWidth? gap?)
  | some w => .live
      { containerWidth := w, containerHeight := 0, options := mkOptions columnWidth? gap?,
        items := [], capturedColumnWidth := 0, loadedImages := 0 }

/-- addItems on a MosaicGrid object: its first line writes
this.container.innerHTML, which throws a TypeError when container is null. -/
def addItemsJS (r : GridRef) (numItems : ℕ) : Except JsError GridRef :=
  match r with
  | .noContainer _ => .error .typeError
  | .live g => .ok (.live (addItems g numItems))

/-- reflow on a MosaicGrid object: reads this.container.offsetWidth, which
throws a TypeError when container is null. -/
def reflowJS (r : GridRef) : Except JsError GridRef :=
  match r with
  | .noContainer _ => .error .typeError
  | .live g => .ok (.live (reflow g))

/-- clear on a MosaicGrid object: writes this.container.innerHTML, which
throws a TypeError when container is null. -/
def clearJS (r : GridRef) : Except JsError GridRef :=
  match r with
  | .noContainer _ => .error .typeError
  | .live g => .ok (.live (clear g))

/-- a live component together with its event machinery: whether the resize
listener is attached and whether a debounced reflow is currently scheduled. -/
structure Component where
  grid : Grid
  listenerAttached : Bool
  pendingReflow : Bool
deriving DecidableEq

/-- a window resize to width w: the viewport always updates offsetWidth;
if the listener is attached its body cancels the pending timeout and
schedules a new one, coalescing into one pending reflow. -/
def resizeEvent (c : Component) (w : ℚ) : Component :=
  let c1 := { c with grid := { c.grid with containerWidth := w } }
  if c.listenerAttached then { c1 with pendingReflow := true } else c1

/-- the debounce timeout firing: run reflow() and clear the schedule. -/
def debounceFire (c : Component) : Component :=
  if c.pendingReflow then { c with grid := reflow c.grid, pendingReflow := false } else c

/-- destroy(): this.clear() then removeEventListener on the resize
listener. Nothing touches the pending timeout. -/
def destroy (c : Component) : Component :=
  { c with grid := clear c.grid, listenerAttached := false }

/-- the spec-side selection, read off the claim: the first starting column
whose spanned maximum is no larger than that of any other candidate. -/
def firstBestColumn (f : ℕ → JsNum) (k : ℕ) : ℕ :=
  (((List.range k).find? fun c => (List.range k).all fun j => decide (f c ≤ f j))).getD 0

/-- the spec-side reading of the inner maximum: the maximum current
cumulative height among the columns the item would span. -/
def specSpanMax (heights : List JsNum) (col span : ℕ) : JsNum :=
  ((List.range span).map fun s => heights.getD (col + s) 0).foldl max 0

/-- one placement step as the claim words it: evaluate every legal start
column, take the first whose spanned maximum is smallest, put the item at
(start times columnWidth plus gap, that maximum), and set every spanned
column to y + itemHeight + gap. -/
def specPlace (gap columnWidth : ℚ) (numColumns : ℕ)
    (st : List JsNum × List (ℕ × Item)) (it : Item) : List JsNum × List (ℕ × Item) :=
  let h := effHeight columnWidth it
  let span := effSpan it
  let start := firstBestColumn (fun c => specSpanMax st.1 c span) (numColumns + 1 - span)
  let y := specSpanMax st.1 start span
  (((List.range st.1.length).map fun c =>
      if start ≤ c ∧ c < start + span then y + (h : JsNum) + (gap : JsNum) else st.1.getD c 0),
   st.2 ++ [(start, { it with tx := (start : ℚ) * (columnWidth + gap), ty := y })])

/-- reflow as the claim describes it, one specPlace per item in input
order, then the container height set to the tallest column. -/
def reflowSpec (g : Grid) : Grid :=
  let n := numColumnsZ g
  if n < 1 then g
  else
    let res := g.items.foldl (specPlace g.options.gap (calculateColumnWidth g) n.toNat)
      (List.replicate n.toNat (0 : JsNum), [])
    { g with items := (res.2.map Prod.snd), containerHeight := jsMaxList res.1 }

/-- the data of an item that reflow reads but never writes: rendered width
and height and the recorded column span. -/
def projItem (it : Item) : ℚ × ℚ × ℕ := (it.width, it.height, it.columnSpan)

/-- the placed pair p (bestColumn, wrapper) occupies column c. -/
def assignedTo (p : ℕ × Item) (c : ℕ) : Prop := p.1 ≤ c ∧ c < p.1 + effSpan p.2

instance (p : ℕ × Item) (c : ℕ) : Decidable (assignedTo p c) := by
  unfold assignedTo
  infer_instance

/-- the bottom edge a placed item reserves on each column it spans: its y
plus its effective height plus the gap. -/
def bottomOf (gap columnWidth : ℚ) (p : ℕ × Item) : JsNum :=
  p.2.ty + (effHeight columnWidth p.2 : JsNum) + (gap : JsNum)

/-- placed items never overlap on a shared column: of two placements, the
earlier one ends (gap included) at or above where the later one starts. -/
def NoOverlap (gap columnWidth : ℚ) (out : List (ℕ × Item)) : Prop :=
  List.Pairwise (fun p q => ∀ c, assignedTo p c → assignedTo q c →
    bottomOf gap columnWidth p ≤ q.2.ty) out

/-- invariant carried through the placement fold of reflow: the heights
array keeps its length, stays nonnegative, every placed item fits inside
the column range, is bounded by the recorded heights of its columns, and
placements never overlap. -/
def PlacedInv (gap columnWidth : ℚ) (N : ℕ) (st : List JsNum × List (ℕ × Item)) : Prop :=
  st.1.length = N ∧
  (∀ c, 0 ≤ st.1.getD c 0) ∧
  (∀ p ∈ st.2, p.1 + effSpan p.2 ≤ N) ∧
  (∀ p ∈ st.2, ∀ c, assignedTo p c → bottomOf gap columnWidth p ≤ st.1.getD c 0) ∧
  NoOverlap gap columnWidth st.2

/-- the sum the claim speaks about: item height plus gap, summed over the
placed items assigned to column c. -/
def colSum (gap columnWidth : ℚ) (out : List (ℕ × Item)) (c : ℕ) : JsNum :=
  ((out.filter fun p => decide (assignedTo p c)).map
    fun p => ((effHeight columnWidth p.2 : ℚ) : JsNum) + (gap : JsNum)).sum

/-- minColumns as computed at the top of calculateColumnWidth(). -/
def minColumnsZ (g : Grid) : ℤ :=
  ⌊(g.containerWidth + g.options.gap) / (g.options.baseColumnWidth + g.options.gap)⌋

/-- the column count as the claim words it, with a minimum of one. -/
def columnsClaim (g : Grid) : ℤ := max 1 (minColumnsZ g)

/-- the span thresholds resolved as a single decision rule: 3 when the
aspect exceeds 5/2 with at least three columns, else min 2 numColumns when
the aspect exceeds 17/10, else an uncapped 1. -/
def spanRule (aspect : ℚ) (n : ℤ) : ℤ :=
  if aspect > 5 / 2 ∧ 3 ≤ n then 3 else if aspect > 17 / 10 then min 2 n else 1

/-- the span as the claim words it: the threshold rule capped at the
column count in every case, the default included. -/
def spanClaim (aspect : ℚ) (n : ℤ) : ℤ :=
  min (if aspect > 5 / 2 ∧ 3 ≤ n then 3 else if aspect > 17 / 10 then 2 else 1) n

/-- default item used only to read list entries. -/
def dItem : Item := { width := 0, height := 0, columnSpan := 0, tx := 0, ty := 0 }

/-- a loaded square card: 250 by 250, span 1. -/
def squareItem : Item := { width := 250, height := 250, columnSpan := 1, tx := 0, ty := 0 }

/-- the options HistoryPage passes: columnWidth 250, gap 20. -/
def demoOptions : Options := { baseColumnWidth := 250, gap := 20 }

/-- a 790 px container with five square cards: 790 + 20 over 270 gives
three columns of width 250. -/
def demoGrid : Grid :=
  { containerWidth := 790, containerHeight := 0, options := demoOptions,
    items := List.replicate 5 squareItem, capturedColumnWidth := 250, loadedImages := 0 }

/-- a 520 px container (two columns) holding a span-1 card of height 100
and a span-2 card of height 50. -/
def c2Grid : Grid :=
  { containerWidth := 520, containerHeight := 0, options := demoOptions,
    items := [{ width := 250, height := 100, columnSpan := 1, tx := 0, ty := 0 },
              { width := 520, height := 50, columnSpan := 2, tx := 0, ty := 0 }],
    capturedColumnWidth := 250, loadedImages := 0 }

/-- a container narrower than one base column. -/
def narrowGrid : Grid :=
  { containerWidth := 100, containerHeight := 0, options := demoOptions,
    items := [squareItem], capturedColumnWidth := 250, loadedImages := 0 }

/-- the spec scenario: container width 1000, base 250, gap 20. -/
def fillGrid : Grid :=
  { containerWidth := 1000, containerHeight := 0, options := demoOptions,
    items := [], capturedColumnWidth := 0, loadedImages := 0 }

/-- a 790 px container (three columns) with one card. -/
def wideGrid : Grid :=
  { containerWidth := 790, containerHeight := 0, options := demoOptions,
    items := [squareItem], capturedColumnWidth := 250, loadedImages := 0 }

/-- the component holding wideGrid after its image loads at aspect 3. -/
def c4Comp : Component :=
  { grid := handleImageLoad wideGrid 0 300 100, listenerAttached := true,
    pendingReflow := false }

/-- c4Comp after the viewport shrinks to 520 px (two columns) and the
debounced reflow fires. -/
def c4Resized : Component := debounceFire (resizeEvent c4Comp 520)

/-- the spec scenario container (width 1000, base 250, gap 20) with one
card added through addItems, so the closure captures columnWidth 320. -/
def c6WideAdded : Grid := addItems fillGrid 1

/-- c6WideAdded after its card's image fails to load. -/
def c6WideErred : Grid := handleImageError c6WideAdded 0

/-- an emptied grid whose container still records a 100 px height. -/
def c8Grid : Grid :=
  { containerWidth := 790, containerHeight := ((100 : ℚ) : JsNum),
    options := demoOptions, items := [], capturedColumnWidth := 250, loadedImages := 0 }

/-- a live component on c8Grid, listener attached, nothing pending. -/
def c8Comp : Component :=
  { grid := c8Grid, listenerAttached := true, pendingReflow := false }

/-! ### The placement search loop

chooseBest is the literal JS search; the lemmas below characterize it as
picking the first start column whose spanned maximum is minimal. -/

theorem chooseBest_succ (f : ℕ → JsNum) (k : ℕ) :
    chooseBest f (k + 1) =
      (if f k < (chooseBest f k).2 then (k, f k) else chooseBest f k) := by
  unfold chooseBest
  rw [List.range_succ, List.foldl_append, List.foldl_cons, List.foldl_nil]

theorem chooseBest_spec (f : ℕ → JsNum) (k : ℕ) (hk : 1 ≤ k) :
    (chooseBest f k).1 < k ∧
    (chooseBest f k).2 = f (chooseBest f k).1 ∧
    (∀ j, j < k → (chooseBest f k).2 ≤ f j) ∧
    (∀ j, j < (chooseBest f k).1 → (chooseBest f k).2 < f j) := by
  induction k with
  | zero => omega
  | succ k ih =>
    rcases Nat.eq_or_lt_of_le hk with h1 | h2
    · have hk0 : k = 0 := by omega
      subst hk0
      rw [chooseBest_succ]
      by_cases h : f 0 < (chooseBest f 0).2
      · rw [if_pos h]
        refine ⟨Nat.zero_lt_one, rfl, ?_, ?_⟩
        · intro j hj
          interval_cases j
          exact le_refl _
        · intro j hj
          omega
      · rw [if_neg h]
        have h2 : (chooseBest f 0).2 = ⊤ := rfl
        have h1 : (chooseBest f 0).1 = 0 := rfl
        have hf0 : f 0 = ⊤ := by
          by_contra hne
          exact h (h2 ▸ (WithTop.lt_top_iff_ne_top.mpr hne))
        refine ⟨by omega, by rw [h2, h1, hf0], ?_, ?_⟩
        · intro j hj
          interval_cases j
          rw [h2, hf0]
        · intro j hj
          rw [h1] at hj
          omega
    · have hk1 : 1 ≤ k := by omega
      obtain ⟨ih1, ih2, ih3, ih4⟩ := ih hk1
      rw [chooseBest_succ]
      by_cases h : f k < (chooseBest f k).2
      · rw [if_pos h]
        refine ⟨by omega, rfl, ?_, ?_⟩
        · intro j hj
          rcases Nat.lt_succ_iff_lt_or_eq.mp hj with hj' | hj'
          · exact le_of_lt (lt_of_lt_of_le h (ih3 j hj'))
          · subst hj'; exact le_refl _
        · intro j hj
          exact lt_of_lt_of_le h (ih3 j hj)
      · rw [if_neg h]
        refine ⟨by omega, ih2, ?_, ih4⟩
        intro j hj
        rcases Nat.lt_succ_iff_lt_or_eq.mp hj with hj' | hj'
        · exact ih3 j hj'
        · subst hj'; exact le_of_not_lt h

theorem find?_range_eq_some (p : ℕ → Bool) (k b : ℕ) (hb : b < k) (hpb : p b = true)
    (hbelow : ∀ c, c < b → p c = false) : (List.range k).find? p = some b := by
  induction k with
  | zero => omega
  | succ k ih =>
    rw [List.range_succ, List.find?_append]
    rcases Nat.lt_succ_iff_lt_or_eq.mp hb with h | h
    · rw [ih h]
      rfl
    · subst h
      have hnone : (List.range b).find? p = none := by
        rw [List.find?_eq_none]
        intro x hx
        simp only [List.mem_range] at hx
        simp [hbelow x hx]
      rw [hnone]
      simp [hpb]

theorem firstBestColumn_eq (f : ℕ → JsNum) (k : ℕ) (hk : 1 ≤ k) :
    firstBestColumn f k = (chooseBest f k).1 := by
  obtain ⟨h1, h2, h3, h4⟩ := chooseBest_spec f k hk
  set b := (chooseBest f k).1 with hbdef
  have hfind : ((List.range k).find? fun c =>
      (List.range k).all fun j => decide (f c ≤ f j)) = some b := by
    apply find?_range_eq_some _ k b h1
    · rw [List.all_eq_true]
      intro j hj
      simp only [List.mem_range] at hj
      simpa using h2 ▸ h3 j hj
    · intro c hc
      rw [← Bool.not_eq_true, List.all_eq_true]
      intro hall
      have hcb : f c ≤ f b := by simpa using hall b (by simpa using h1)
      have : (chooseBest f k).2 < f c := h4 c hc
      rw [h2] at this
      exact absurd hcb (not_le_of_lt this)
  rw [firstBestColumn, hfind]
  rfl

theorem spanMax_zero (h : List JsNum) (col : ℕ) : spanMax h col 0 = 0 := rfl

theorem spanMax_succ (h : List JsNum) (col n : ℕ) :
    spanMax h col (n + 1) = max (spanMax h col n) (h.getD (col + n) 0) := by
  unfold spanMax
  rw [List.range_succ, List.foldl_append, List.foldl_cons, List.foldl_nil]

theorem spanMax_nonneg (h : List JsNum) (col span : ℕ) : 0 ≤ spanMax h col span := by
  induction span with
  | zero => exact le_refl _
  | succ n ih => rw [spanMax_succ]; exact le_max_of_le_left ih

theorem le_spanMax (h : List JsNum) (col span s : ℕ) (hs : s < span) :
    h.getD (col + s) 0 ≤ spanMax h col span := by
  induction span with
  | zero => omega
  | succ n ih =>
    rw [spanMax_succ]
    rcases Nat.lt_succ_iff_lt_or_eq.mp hs with h' | h'
    · exact le_max_of_le_left (ih h')
    · subst h'; exact le_max_right _ _

theorem spanMax_le (h : List JsNum) (col span : ℕ) (b : JsNum) (hb : 0 ≤ b)
    (hall : ∀ s, s < span → h.getD (col + s) 0 ≤ b) : spanMax h col span ≤ b := by
  induction span with
  | zero => exact hb
  | succ n ih =>
    rw [spanMax_succ]
    exact max_le (ih fun s hs => hall s (by omega)) (hall n (by omega))

theorem setH_length (h : List JsNum) (i : ℕ) (v : JsNum) (hi : i < h.length) :
    (setH h i v).length = h.length := by
  rw [setH, if_pos hi, List.length_set]

theorem setH_getD (h : List JsNum) (i c : ℕ) (v : JsNum) (hi : i < h.length) :
    (setH h i v).getD c 0 = if i = c then v else h.getD c 0 := by
  rw [setH, if_pos hi]
  by_cases hc : i = c
  · subst hc
    rw [if_pos rfl]
    rw [List.getD_eq_getElem?_getD, List.getElem?_set_self (by omega)]
    rfl
  · rw [if_neg hc]
    rw [List.getD_eq_getElem?_getD, List.getElem?_set_ne hc, ← List.getD_eq_getElem?_getD]

theorem updateHeights_succ (h : List JsNum) (col n : ℕ) (v : JsNum) :
    updateHeights h col (n + 1) v = setH (updateHeights h col n v) (col + n) v := by
  unfold updateHeights
  rw [List.range_succ, List.foldl_append, List.foldl_cons, List.foldl_nil]

theorem updateHeights_length (h : List JsNum) (col span : ℕ) (v : JsNum)
    (hin : col + span ≤ h.length) : (updateHeights h col span v).length = h.length := by
  induction span with
  | zero => rfl
  | succ n ih =>
    have hn : col + n ≤ h.length := by omega
    rw [updateHeights_succ, setH_length _ _ _ (by rw [ih hn]; omega), ih hn]

theorem updateHeights_getD (h : List JsNum) (col span c : ℕ) (v : JsNum)
    (hin : col + span ≤ h.length) :
    (updateHeights h col span v).getD c 0 =
      if col ≤ c ∧ c < col + span then v else h.getD c 0 := by
  induction span with
  | zero =>
    have : ¬(col ≤ c ∧ c < col + 0) := by omega
    rw [if_neg this]; rfl
  | succ n ih =>
    have hn : col + n ≤ h.length := by omega
    rw [updateHeights_succ, setH_getD _ _ _ _ (by rw [updateHeights_length _ _ _ _ hn]; omega),
      ih hn]
    by_cases h1 : col + n = c
    · rw [if_pos h1, if_pos (by omega)]
    · rw [if_neg h1]
      by_cases h2 : col ≤ c ∧ c < col + n
      · rw [if_pos h2, if_pos (by omega)]
      · rw [if_neg h2, if_neg (by omega)]

theorem specSpanMax_eq (h : List JsNum) (col span : ℕ) :
    specSpanMax h col span = spanMax h col span := by
  rw [specSpanMax, spanMax, List.foldl_map]

theorem list_eq_of_getD (l₁ l₂ : List JsNum) (hlen : l₁.length = l₂.length)
    (hg : ∀ c, c < l₁.length → l₁.getD c 0 = l₂.getD c 0) : l₁ = l₂ := by
  apply List.ext_getElem hlen
  intro i h1 h2
  have h3 := hg i h1
  rwa [List.getD_eq_getElem?_getD, List.getD_eq_getElem?_getD, List.getElem?_eq_getElem h1,
    List.getElem?_eq_getElem h2, Option.getD_some, Option.getD_some] at h3

theorem getD_map_range (L c : ℕ) (fn : ℕ → JsNum) (hc : c < L) :
    ((List.range L).map fn).getD c 0 = fn c := by
  rw [List.getD_eq_getElem?_getD, List.getElem?_map, List.getElem?_range hc]
  rfl

theorem placeItem_eq_specPlace (gap columnWidth : ℚ) (N : ℕ)
    (st : List JsNum × List (ℕ × Item)) (it : Item)
    (hlen : st.1.length = N) (hspan : effSpan it ≤ N) :
    placeItem gap columnWidth N st it = specPlace gap columnWidth N st it := by
  have hk : 1 ≤ N + 1 - effSpan it := by omega
  set f : ℕ → JsNum := fun c => spanMax st.1 c (effSpan it) with hf
  obtain ⟨hb1, hb2, hb3, hb4⟩ := chooseBest_spec f (N + 1 - effSpan it) hk
  have hfirst : firstBestColumn (fun c => specSpanMax st.1 c (effSpan it)) (N + 1 - effSpan it)
      = (chooseBest f (N + 1 - effSpan it)).1 := by
    have he : (fun c => specSpanMax st.1 c (effSpan it)) = f := by
      funext c; rw [hf]; exact specSpanMax_eq _ _ _
    rw [he]
    exact firstBestColumn_eq f _ hk
  have hbN : (chooseBest f (N + 1 - effSpan it)).1 + effSpan it ≤ N := by omega
  have hv : specSpanMax st.1 (chooseBest f (N + 1 - effSpan it)).1 (effSpan it)
      = (chooseBest f (N + 1 - effSpan it)).2 := by
    rw [hb2, specSpanMax_eq]
  simp only [placeItem, specPlace]
  rw [show (fun col => spanMax st.1 col (effSpan it)) = f from rfl, hfirst, hv]
  refine Prod.ext ?_ rfl
  show updateHeights st.1 (chooseBest f (N + 1 - effSpan it)).1 (effSpan it)
      ((chooseBest f (N + 1 - effSpan it)).2 + (effHeight columnWidth it : JsNum) + (gap : JsNum)) =
    (List.range st.1.length).map fun c =>
      if (chooseBest f (N + 1 - effSpan it)).1 ≤ c ∧
          c < (chooseBest f (N + 1 - effSpan it)).1 + effSpan it then
        (chooseBest f (N + 1 - effSpan it)).2 + (effHeight columnWidth it : JsNum) + (gap : JsNum)
      else st.1.getD c 0
  apply list_eq_of_getD
  · rw [updateHeights_length _ _ _ _ (hlen ▸ hbN), List.length_map, List.length_range]
  · intro c hc
    rw [updateHeights_length _ _ _ _ (hlen ▸ hbN)] at hc
    rw [updateHeights_getD _ _ _ _ _ (hlen ▸ hbN), getD_map_range _ _ _ hc]

theorem specPlace_heights_length (gap columnWidth : ℚ) (N : ℕ)
    (st : List JsNum × List (ℕ × Item)) (it : Item) :
    (specPlace gap columnWidth N st it).1.length = st.1.length := by
  simp only [specPlace, List.length_map, List.length_range]

theorem placeItem_heights_length (gap columnWidth : ℚ) (N : ℕ)
    (st : List JsNum × List (ℕ × Item)) (it : Item)
    (hlen : st.1.length = N) (hspan : effSpan it ≤ N) :
    (placeItem gap columnWidth N st it).1.length = N := by
  rw [placeItem_eq_specPlace gap columnWidth N st it hlen hspan,
    specPlace_heights_length, hlen]

theorem foldl_place_eq_spec (gap columnWidth : ℚ) (N : ℕ) :
    ∀ (items : List Item) (st : List JsNum × List (ℕ × Item)),
      st.1.length = N → (∀ it ∈ items, effSpan it ≤ N) →
      items.foldl (placeItem gap columnWidth N) st =
        items.foldl (specPlace gap columnWidth N) st := by
  intro items
  induction items with
  | nil => intro st _ _; rfl
  | cons a rest ih =>
    intro st hlen hall
    have ha : effSpan a ≤ N := hall a (List.mem_cons_self a rest)
    rw [List.foldl_cons, List.foldl_cons,
      ← placeItem_eq_specPlace gap columnWidth N st a hlen ha]
    exact ih (placeItem gap columnWidth N st a)
      (placeItem_heights_length gap columnWidth N st a hlen ha)
      (fun it hit => hall it (List.mem_cons_of_mem a hit))

/-- the first, universally quantified half of the greedy placement claim:
whenever at least one column exists and every stored span is legal, reflow
computes exactly the layout written in the claim language. -/
theorem reflow_eq_reflowSpec (g : Grid) (hn : 1 ≤ numColumnsZ g)
    (hspans : ∀ it ∈ g.items, effSpan it ≤ (numColumnsZ g).toNat) :
    reflow g = reflowSpec g := by
  rw [reflow, reflowSpec]
  have hguard : ¬(numColumnsZ g < 1) := by omega
  rw [if_neg hguard, if_neg hguard]
  rw [reflowCore, foldl_place_eq_spec g.options.gap (calculateColumnWidth g)
    (numColumnsZ g).toNat g.items _ (by rw [List.length_replicate]) hspans]

theorem foldl_place_proj (gap columnWidth : ℚ) (N : ℕ) :
    ∀ (items : List Item) (st : List JsNum × List (ℕ × Item)),
      ((items.foldl (placeItem gap columnWidth N) st).2).map (fun p => projItem p.2) =
        st.2.map (fun p => projItem p.2) ++ items.map projItem := by
  intro items
  induction items with
  | nil => intro st; simp
  | cons a rest ih =>
    intro st
    rw [List.foldl_cons, ih]
    simp only [placeItem, List.map_append, List.map_cons, List.map_nil, List.append_assoc]
    rfl

theorem reflow_fields (g : Grid) :
    (reflow g).containerWidth = g.containerWidth ∧
    (reflow g).options = g.options ∧
    (reflow g).capturedColumnWidth = g.capturedColumnWidth ∧
    (reflow g).loadedImages = g.loadedImages := by
  rw [reflow]
  by_cases h : numColumnsZ g < 1
  · rw [if_pos h]; exact ⟨rfl, rfl, rfl, rfl⟩
  · rw [if_neg h]; exact ⟨rfl, rfl, rfl, rfl⟩

theorem reflow_proj (g : Grid) :
    (reflow g).items.map projItem = g.items.map projItem := by
  rw [reflow]
  by_cases h : numColumnsZ g < 1
  · rw [if_pos h]
  · rw [if_neg h]
    show ((reflowCore g (numColumnsZ g).toNat).2.map Prod.snd).map projItem = _
    rw [List.map_map,
      show (projItem ∘ Prod.snd : ℕ × Item → ℚ × ℚ × ℕ) = fun p => projItem p.2 from rfl,
      reflowCore, foldl_place_proj]
    simp

theorem calculateColumnWidth_congr (g₁ g₂ : Grid)
    (hw : g₁.containerWidth = g₂.containerWidth) (ho : g₁.options = g₂.options) :
    calculateColumnWidth g₁ = calculateColumnWidth g₂ := by
  rw [calculateColumnWidth, calculateColumnWidth, hw, ho]

theorem numColumnsZ_congr (g₁ g₂ : Grid)
    (hw : g₁.containerWidth = g₂.containerWidth) (ho : g₁.options = g₂.options) :
    numColumnsZ g₁ = numColumnsZ g₂ := by
  rw [numColumnsZ, numColumnsZ, hw, ho, calculateColumnWidth_congr g₁ g₂ hw ho]

theorem placeItem_congr (gap columnWidth : ℚ) (N : ℕ)
    (st : List JsNum × List (ℕ × Item)) (it₁ it₂ : Item)
    (hp : projItem it₁ = projItem it₂) :
    placeItem gap columnWidth N st it₁ = placeItem gap columnWidth N st it₂ := by
  obtain ⟨w₁, h₁, s₁, tx₁, ty₁⟩ := it₁
  obtain ⟨w₂, h₂, s₂, tx₂, ty₂⟩ := it₂
  simp only [projItem, Prod.mk.injEq] at hp
  obtain ⟨hw, hh, hs⟩ := hp
  subst hw; subst hh; subst hs
  rfl

theorem foldl_place_congr (gap columnWidth : ℚ) (N : ℕ) :
    ∀ (items₁ items₂ : List Item) (st : List JsNum × List (ℕ × Item)),
      items₁.map projItem = items₂.map projItem →
      items₁.foldl (placeItem gap columnWidth N) st =
        items₂.foldl (placeItem gap columnWidth N) st := by
  intro items₁
  induction items₁ with
  | nil =>
    intro items₂ st h
    rw [List.map_nil] at h
    rw [List.eq_nil_of_map_eq_nil h.symm]
  | cons a rest ih =>
    intro items₂ st h
    cases items₂ with
    | nil => simp at h
    | cons b rest₂ =>
      simp only [List.map_cons, List.cons.injEq] at h
      rw [List.foldl_cons, List.foldl_cons, placeItem_congr gap columnWidth N st a b h.1]
      exact ih rest₂ _ h.2

theorem reflow_reflow (g : Grid) : reflow (reflow g) = reflow g := by
  obtain ⟨hw, ho, _, _⟩ := reflow_fields g
  have hn : numColumnsZ (reflow g) = numColumnsZ g := numColumnsZ_congr _ _ hw ho
  by_cases h : numColumnsZ g < 1
  · have hg : reflow g = g := by rw [reflow, if_pos h]
    rw [hg]
    exact hg
  · have hcw : calculateColumnWidth (reflow g) = calculateColumnWidth g :=
      calculateColumnWidth_congr _ _ hw ho
    have hcore : reflowCore (reflow g) (numColumnsZ g).toNat
        = reflowCore g (numColumnsZ g).toNat := by
      rw [reflowCore, reflowCore, hcw, ho]
      exact foldl_place_congr _ _ _ _ _ _ (reflow_proj g)
    have hrg : reflow g = { g with
        items := ((reflowCore g (numColumnsZ g).toNat).2.map Prod.snd),
        containerHeight := jsMaxList (reflowCore g (numColumnsZ g).toNat).1 } := by
      rw [reflow, if_neg h]
    conv_lhs => rw [reflow]
    rw [hn, if_neg h, hcore]
    conv_lhs => rw [hrg]
    rw [hrg]

theorem effSpan_pos (it : Item) : 1 ≤ effSpan it := by
  rw [effSpan]
  by_cases h : it.columnSpan = 0
  · rw [if_pos h]
  · rw [if_neg h]; omega

theorem placeItem_inv (gap columnWidth : ℚ) (N : ℕ)
    (st : List JsNum × List (ℕ × Item)) (it : Item)
    (hInv : PlacedInv gap columnWidth N st) (hspan : effSpan it ≤ N)
    (hh : 0 ≤ effHeight columnWidth it) (hgap : 0 ≤ gap) :
    PlacedInv gap columnWidth N (placeItem gap columnWidth N st it) := by
  obtain ⟨hlen, hpos, hin, hbnd, hno⟩ := hInv
  have hk : 1 ≤ N + 1 - effSpan it := by omega
  set f : ℕ → JsNum := fun c => spanMax st.1 c (effSpan it) with hf
  obtain ⟨hb1, hb2, hb3, hb4⟩ := chooseBest_spec f (N + 1 - effSpan it) hk
  set b := (chooseBest f (N + 1 - effSpan it)).1 with hbdef
  set m := (chooseBest f (N + 1 - effSpan it)).2 with hmdef
  have hbN : b + effSpan it ≤ N := by omega
  have hbL : b + effSpan it ≤ st.1.length := hlen ▸ hbN
  have hm0 : 0 ≤ m := by
    rw [hb2]
    exact spanMax_nonneg _ _ _
  have hcoeh : (0 : JsNum) ≤ ((effHeight columnWidth it : ℚ) : JsNum) := by
    exact_mod_cast hh
  have hcoeg : (0 : JsNum) ≤ ((gap : ℚ) : JsNum) := by exact_mod_cast hgap
  have hmv : m ≤ m + (effHeight columnWidth it : JsNum) + (gap : JsNum) := by
    calc m ≤ m + (effHeight columnWidth it : JsNum) := le_add_of_nonneg_right hcoeh
    _ ≤ _ := le_add_of_nonneg_right hcoeg
  have hspanm : ∀ c, b ≤ c → c < b + effSpan it → st.1.getD c 0 ≤ m := by
    intro c h1 h2
    have hc : c = b + (c - b) := by omega
    rw [hc, hb2]
    exact le_spanMax _ _ _ _ (by omega)
  have hgood : ∀ c, (placeItem gap columnWidth N st it).1.getD c 0 =
      if b ≤ c ∧ c < b + effSpan it then m + (effHeight columnWidth it : JsNum) + (gap : JsNum)
      else st.1.getD c 0 := by
    intro c
    show (updateHeights st.1 b (effSpan it) _).getD c 0 = _
    rw [updateHeights_getD _ _ _ _ _ hbL]
  have hmono : ∀ c, st.1.getD c 0 ≤ (placeItem gap columnWidth N st it).1.getD c 0 := by
    intro c
    rw [hgood c]
    by_cases hc : b ≤ c ∧ c < b + effSpan it
    · rw [if_pos hc]
      exact le_trans (hspanm c hc.1 hc.2) hmv
    · rw [if_neg hc]
  refine ⟨?_, ?_, ?_, ?_, ?_⟩
  · show (updateHeights st.1 b (effSpan it) _).length = N
    rw [updateHeights_length _ _ _ _ hbL, hlen]
  · intro c
    exact le_trans (hpos c) (hmono c)
  · intro p hp
    rcases List.mem_append.mp hp with hpold | hpnew
    · exact hin p hpold
    · have hpe : p = (b, { it with tx := (b : ℚ) * (columnWidth + gap), ty := m }) := by
        simpa using hpnew
      subst hpe
      exact hbN
  · intro p hp c hc
    rcases List.mem_append.mp hp with hpold | hpnew
    · exact le_trans (hbnd p hpold c hc) (hmono c)
    · have hpeq : p = (b, { it with tx := (b : ℚ) * (columnWidth + gap), ty := m }) := by
        simpa using hpnew
      subst hpeq
      obtain ⟨hc1, hc2⟩ := hc
      rw [hgood c, if_pos ⟨hc1, hc2⟩]
      exact le_refl _
  · show NoOverlap gap columnWidth (st.2 ++ [_])
    rw [NoOverlap, List.pairwise_append]
    refine ⟨hno, List.pairwise_singleton _ _, ?_⟩
    intro p hpold q hqnew c hcp hcq
    have hqeq : q = (b, { it with tx := (b : ℚ) * (columnWidth + gap), ty := m }) := by
      simpa using hqnew
    subst hqeq
    obtain ⟨hc1, hc2⟩ := hcq
    show bottomOf gap columnWidth p ≤ m
    exact le_trans (hbnd p hpold c hcp) (hspanm c hc1 hc2)

theorem foldl_place_inv (gap columnWidth : ℚ) (N : ℕ) (hgap : 0 ≤ gap) :
    ∀ (items : List Item) (st : List JsNum × List (ℕ × Item)),
      PlacedInv gap columnWidth N st →
      (∀ it ∈ items, effSpan it ≤ N ∧ 0 ≤ effHeight columnWidth it) →
      PlacedInv gap columnWidth N (items.foldl (placeItem gap columnWidth N) st) := by
  intro items
  induction items with
  | nil => intro st h _; exact h
  | cons a rest ih =>
    intro st h hall
    rw [List.foldl_cons]
    exact ih (placeItem gap columnWidth N st a)
      (placeItem_inv gap columnWidth N st a h
        (hall a (List.mem_cons_self a rest)).1 (hall a (List.mem_cons_self a rest)).2 hgap)
      (fun it hit => hall it (List.mem_cons_of_mem a hit))

theorem getD_replicate (N c : ℕ) : (List.replicate N (0 : JsNum)).getD c 0 = 0 := by
  rw [List.getD_eq_getElem?_getD]
  by_cases h : c < N
  · rw [List.getElem?_replicate, if_pos h]
    rfl
  · rw [List.getElem?_eq_none (by rw [List.length_replicate]; omega)]
    rfl

theorem initInv (gap columnWidth : ℚ) (N : ℕ) :
    PlacedInv gap columnWidth N (List.replicate N (0 : JsNum), []) := by
  refine ⟨List.length_replicate N 0, ?_, ?_, ?_, List.Pairwise.nil⟩
  · intro c
    rw [getD_replicate]
  · intro p hp
    simp at hp
  · intro p hp
    simp at hp

theorem le_foldl_max (t : List JsNum) : ∀ a : JsNum, a ≤ t.foldl max a := by
  induction t with
  | nil => intro a; exact le_refl a
  | cons b t ih =>
    intro a
    rw [List.foldl_cons]
    exact le_trans (le_max_left a b) (ih (max a b))

theorem mem_le_foldl_max (t : List JsNum) : ∀ (a x : JsNum), x ∈ t → x ≤ t.foldl max a := by
  induction t with
  | nil => intro a x hx; simp at hx
  | cons b t ih =>
    intro a x hx
    rw [List.foldl_cons]
    rcases List.mem_cons.mp hx with h | h
    · subst h
      exact le_trans (le_max_right a x) (le_foldl_max t _)
    · exact ih _ x h

theorem getD_le_jsMaxList (l : List JsNum) (c : ℕ) (hc : c < l.length) :
    l.getD c 0 ≤ jsMaxList l := by
  have hg : l.getD c 0 = l[c] := by
    rw [List.getD_eq_getElem?_getD, List.getElem?_eq_getElem hc, Option.getD_some]
  rw [hg]
  cases l with
  | nil => simp at hc
  | cons h t =>
    rcases List.mem_cons.mp (List.getElem_mem hc) with h1 | h1
    · rw [jsMaxList, h1]
      exact le_foldl_max t h
    · rw [jsMaxList]
      exact mem_le_foldl_max t h _ h1

theorem effSpan_mk_eq (it : Item) (x : ℚ) (y : JsNum) :
    effSpan { it with tx := x, ty := y } = effSpan it := rfl

theorem effHeight_mk_eq (w : ℚ) (it : Item) (x : ℚ) (y : JsNum) :
    effHeight w { it with tx := x, ty := y } = effHeight w it := rfl

theorem placeItem_sum (gap columnWidth : ℚ) (N : ℕ)
    (st : List JsNum × List (ℕ × Item)) (it : Item)
    (hInv : PlacedInv gap columnWidth N st) (hN : 1 ≤ N) (hspan1 : effSpan it = 1)
    (hsum : ∀ c, c < N → st.1.getD c 0 = colSum gap columnWidth st.2 c) :
    ∀ c, c < N → (placeItem gap columnWidth N st it).1.getD c 0
      = colSum gap columnWidth (placeItem gap columnWidth N st it).2 c := by
  obtain ⟨hlen, hpos, hin, hbnd, hno⟩ := hInv
  have hk : 1 ≤ N + 1 - effSpan it := by omega
  set f : ℕ → JsNum := fun c => spanMax st.1 c (effSpan it) with hf
  obtain ⟨hb1, hb2, hb3, hb4⟩ := chooseBest_spec f (N + 1 - effSpan it) hk
  set b := (chooseBest f (N + 1 - effSpan it)).1 with hbdef
  set m := (chooseBest f (N + 1 - effSpan it)).2 with hmdef
  have hbN : b + effSpan it ≤ N := by omega
  have hbL : b + effSpan it ≤ st.1.length := hlen ▸ hbN
  have hbltN : b < N := by omega
  have hm : m = st.1.getD b 0 := by
    rw [hb2, hf]
    show spanMax st.1 b (effSpan it) = _
    rw [hspan1, spanMax_succ, spanMax_zero, Nat.add_zero]
    exact max_eq_right (hpos b)
  intro c hc
  have hgood : (placeItem gap columnWidth N st it).1.getD c 0 =
      if b ≤ c ∧ c < b + effSpan it then m + (effHeight columnWidth it : JsNum) + (gap : JsNum)
      else st.1.getD c 0 := by
    show (updateHeights st.1 b (effSpan it) _).getD c 0 = _
    rw [updateHeights_getD _ _ _ _ _ hbL]
  have hout : (placeItem gap columnWidth N st it).2 =
      st.2 ++ [(b, { it with tx := (b : ℚ) * (columnWidth + gap), ty := m })] := rfl
  rw [hgood, hout, colSum, List.filter_append, List.map_append, List.sum_append]
  have hassign : assignedTo (b, { it with tx := (b : ℚ) * (columnWidth + gap), ty := m }) c
      ↔ c = b := by
    rw [assignedTo]
    show b ≤ c ∧ c < b + effSpan { it with tx := _, ty := m } ↔ c = b
    rw [effSpan_mk_eq, hspan1]
    omega
  by_cases hcb : c = b
  · rw [if_pos (by rw [hspan1]; omega)]
    have hdec : decide (assignedTo
        (b, { it with tx := (b : ℚ) * (columnWidth + gap), ty := m }) c) = true := by
      rw [decide_eq_true_eq]
      exact hassign.mpr hcb
    have hfil : List.filter (fun p => decide (assignedTo p c))
        [(b, { it with tx := (b : ℚ) * (columnWidth + gap), ty := m })]
        = [(b, { it with tx := (b : ℚ) * (columnWidth + gap), ty := m })] := by
      rw [List.filter_cons, if_pos hdec, List.filter_nil]
    rw [hfil, List.map_singleton, List.sum_singleton, effHeight_mk_eq, hcb, hm, hsum b hbltN]
    exact add_assoc _ _ _
  · rw [if_neg (by rw [hspan1]; omega)]
    have hdec : ¬ decide (assignedTo
        (b, { it with tx := (b : ℚ) * (columnWidth + gap), ty := m }) c) = true := by
      rw [decide_eq_true_eq]
      exact fun h => hcb (hassign.mp h)
    have hfil : List.filter (fun p => decide (assignedTo p c))
        [(b, { it with tx := (b : ℚ) * (columnWidth + gap), ty := m })] = [] := by
      rw [List.filter_cons, if_neg hdec, List.filter_nil]
    rw [hfil, List.map_nil, List.sum_nil, add_zero]
    exact hsum c hc

theorem foldl_place_sum (gap columnWidth : ℚ) (N : ℕ) (hgap : 0 ≤ gap) (hN : 1 ≤ N) :
    ∀ (items : List Item) (st : List JsNum × List (ℕ × Item)),
      PlacedInv gap columnWidth N st →
      (∀ it ∈ items, effSpan it = 1 ∧ 0 ≤ effHeight columnWidth it) →
      (∀ c, c < N → st.1.getD c 0 = colSum gap columnWidth st.2 c) →
      ∀ c, c < N → (items.foldl (placeItem gap columnWidth N) st).1.getD c 0
        = colSum gap columnWidth (items.foldl (placeItem gap columnWidth N) st).2 c := by
  intro items
  induction items with
  | nil => intro st _ _ hsum; exact hsum
  | cons a rest ih =>
    intro st hInv hall hsum
    rw [List.foldl_cons]
    have ha := hall a (List.mem_cons_self a rest)
    exact ih (placeItem gap columnWidth N st a)
      (placeItem_inv gap columnWidth N st a hInv (ha.1 ▸ hN) ha.2 hgap)
      (fun it hit => hall it (List.mem_cons_of_mem a hit))
      (placeItem_sum gap columnWidth N st a hInv hN ha.1 hsum)

theorem calculateColumnWidth_eq (g : Grid) :
    calculateColumnWidth g =
      if minColumnsZ g < 1 then g.options.baseColumnWidth
      else (g.containerWidth - ((minColumnsZ g : ℚ) - 1) * g.options.gap) / (minColumnsZ g : ℚ) :=
  rfl

theorem columnWidth_fill (g : Grid) (hpos : 0 < g.options.baseColumnWidth + g.options.gap)
    (hm : 1 ≤ minColumnsZ g) :
    numColumnsZ g = minColumnsZ g ∧
    (minColumnsZ g : ℚ) * calculateColumnWidth g + ((minColumnsZ g : ℚ) - 1) * g.options.gap
      = g.containerWidth := by
  set cw := g.containerWidth
  set gap := g.options.gap
  set base := g.options.baseColumnWidth
  set m := minColumnsZ g with hmdef
  have hq : (1 : ℚ) ≤ (cw + gap) / (base + gap) := by
    have := Int.le_floor.mp hm
    exact_mod_cast this
  have hcwgap : 0 < cw + gap := by
    have h0 : 0 < (cw + gap) / (base + gap) := lt_of_lt_of_le zero_lt_one hq
    have hne : base + gap ≠ 0 := ne_of_gt hpos
    have := mul_pos h0 hpos
    rwa [div_mul_cancel₀ _ hne] at this
  have hmq : (0 : ℚ) < (m : ℚ) := by exact_mod_cast lt_of_lt_of_le zero_lt_one hm
  have hmne : (m : ℚ) ≠ 0 := ne_of_gt hmq
  have hw : calculateColumnWidth g = (cw - ((m : ℚ) - 1) * gap) / (m : ℚ) := by
    rw [calculateColumnWidth_eq, if_neg (by omega)]
  have hwg : calculateColumnWidth g + gap = (cw + gap) / (m : ℚ) := by
    rw [hw]
    field_simp
    ring
  constructor
  · rw [numColumnsZ]
    show ⌊(cw + gap) / (calculateColumnWidth g + gap)⌋ = m
    rw [hwg]
    have hd : (cw + gap) / ((cw + gap) / (m : ℚ)) = (m : ℚ) := by
      rw [div_div_eq_mul_div, mul_comm, mul_div_assoc, div_self (ne_of_gt hcwgap), mul_one]
    rw [hd, Int.floor_intCast]
  · rw [hw]
    field_simp

theorem reflow_noop_of_narrow (g : Grid) (hm : minColumnsZ g < 1) :
    calculateColumnWidth g = g.options.baseColumnWidth ∧
    numColumnsZ g = minColumnsZ g ∧ reflow g = g := by
  have hw : calculateColumnWidth g = g.options.baseColumnWidth := by
    rw [calculateColumnWidth_eq, if_pos hm]
  have hn : numColumnsZ g = minColumnsZ g := by
    rw [numColumnsZ, hw]
    rfl
  exact ⟨hw, hn, by rw [reflow, hn, if_pos hm]⟩

theorem modifyIdx_length {α : Type} (l : List α) (i : ℕ) (f : α → α) :
    (modifyIdx l i f).length = l.length := by
  induction l generalizing i with
  | nil => rfl
  | cons a rest ih =>
    cases i with
    | zero => rfl
    | succ n =>
      show (a :: modifyIdx rest n f).length = (a :: rest).length
      rw [List.length_cons, List.length_cons, ih n]

theorem modifyIdx_getD_self {α : Type} (l : List α) (i : ℕ) (f : α → α) (d : α)
    (hi : i < l.length) : (modifyIdx l i f).getD i d = f (l.getD i d) := by
  induction l generalizing i with
  | nil => simp at hi
  | cons a rest ih =>
    cases i with
    | zero => rfl
    | succ n =>
      show (a :: modifyIdx rest n f).getD (n + 1) d = f ((a :: rest).getD (n + 1) d)
      rw [List.getD_cons_succ, List.getD_cons_succ]
      exact ih n (by simpa using hi)

theorem modifyIdx_getD_ne {α : Type} (l : List α) (i j : ℕ) (f : α → α) (d : α)
    (hij : i ≠ j) : (modifyIdx l i f).getD j d = l.getD j d := by
  induction l generalizing i j with
  | nil => rfl
  | cons a rest ih =>
    cases i with
    | zero =>
      cases j with
      | zero => omega
      | succ n => rfl
    | succ n =>
      cases j with
      | zero => rfl
      | succ k =>
        show (a :: modifyIdx rest n f).getD (k + 1) d = (a :: rest).getD (k + 1) d
        rw [List.getD_cons_succ, List.getD_cons_succ]
        exact ih n k (by omega)

theorem map_getD_of_lt {α β : Type} (f : α → β) (l : List α) (i : ℕ) (d : β) (e : α)
    (hi : i < l.length) : (l.map f).getD i d = f (l.getD i e) := by
  rw [List.getD_eq_getElem?_getD, List.getElem?_map, List.getElem?_eq_getElem hi,
    List.getD_eq_getElem?_getD, List.getElem?_eq_getElem hi]
  rfl

theorem reflow_items_length (g : Grid) : (reflow g).items.length = g.items.length := by
  have h := congrArg List.length (reflow_proj g)
  rwa [List.length_map, List.length_map] at h

theorem reflow_getD_proj (g : Grid) (i : ℕ) (d : Item) (hi : i < g.items.length) :
    projItem ((reflow g).items.getD i d) = projItem (g.items.getD i d) := by
  have h := congrArg (fun l => l.getD i (projItem d)) (reflow_proj g)
  simp only at h
  rwa [map_getD_of_lt projItem _ i _ d (by rw [reflow_items_length]; exact hi),
    map_getD_of_lt projItem _ i _ d hi] at h

theorem loadSpan_eq_spanRule (aspect : ℚ) (n : ℤ) : loadSpan aspect n = spanRule aspect n := by
  rw [loadSpan, spanRule]
  by_cases h1 : aspect > 5 / 2 ∧ 3 ≤ n
  · show (if aspect > 5 / 2 ∧ 3 ≤ n then min 3 n else _) = _
    rw [if_pos h1, if_pos h1, min_eq_left (by omega)]
  · show (if aspect > 5 / 2 ∧ 3 ≤ n then min 3 n else _) = _
    rw [if_neg h1, if_neg h1]

theorem spanRule_le (aspect : ℚ) (n : ℤ) (hn : 1 ≤ n) :
    (spanRule aspect n).toNat ≤ n.toNat := by
  rw [spanRule]
  split_ifs with h1 h2
  · omega
  · omega
  · omega

theorem applyLoad_items_length (g1 : Grid) (i : ℕ) (aspect : ℚ) :
    (applyLoad g1 i aspect).items.length = g1.items.length := by
  show (modifyIdx g1.items i _).length = g1.items.length
  rw [modifyIdx_length]

theorem applyLoad_span (g1 : Grid) (i : ℕ) (aspect : ℚ) (d : Item)
    (hi : i < g1.items.length) :
    ((applyLoad g1 i aspect).items.getD i d).columnSpan
      = (loadSpan aspect (numColumnsZ g1)).toNat := by
  show ((modifyIdx g1.items i _).getD i d).columnSpan = _
  rw [modifyIdx_getD_self _ _ _ _ hi]

theorem handleImageLoad_span (g : Grid) (i : ℕ) (nw nh : ℕ) (d : Item)
    (hi : i < g.items.length) (hnh : 0 < nh) :
    ((handleImageLoad g i nw nh).items.getD i d).columnSpan
      = (spanRule ((nw : ℚ) / (nh : ℚ)) (numColumnsZ g)).toNat := by
  rw [handleImageLoad, if_pos hnh]
  have hg1 : numColumnsZ { g with loadedImages := g.loadedImages + 1 } = numColumnsZ g := rfl
  have hlen1 : i < ({ g with loadedImages := g.loadedImages + 1 } : Grid).items.length := hi
  have hlen2 : i < (applyLoad { g with loadedImages := g.loadedImages + 1 } i
      ((nw : ℚ) / (nh : ℚ))).items.length := by
    rw [applyLoad_items_length]
    exact hlen1
  have hproj := reflow_getD_proj (applyLoad { g with loadedImages := g.loadedImages + 1 } i
    ((nw : ℚ) / (nh : ℚ))) i d hlen2
  have hspan := congrArg (fun t => t.2.2) hproj
  simp only [projItem] at hspan
  rw [hspan, applyLoad_span _ _ _ _ hlen1, hg1, loadSpan_eq_spanRule]

theorem getD_mem_of_lt {α : Type} (l : List α) (i : ℕ) (e : α) (hi : i < l.length) :
    l.getD i e ∈ l := by
  rw [List.getD_eq_getElem?_getD, List.getElem?_eq_getElem hi, Option.getD_some]
  exact List.getElem_mem hi

theorem reflowCore_inv (g : Grid) (hspans : ∀ it ∈ g.items, effSpan it ≤ (numColumnsZ g).toNat)
    (hgap : 0 ≤ g.options.gap)
    (hhts : ∀ it ∈ g.items, 0 ≤ effHeight (calculateColumnWidth g) it) :
    PlacedInv g.options.gap (calculateColumnWidth g) (numColumnsZ g).toNat
      (reflowCore g (numColumnsZ g).toNat) := by
  rw [reflowCore]
  exact foldl_place_inv _ _ _ hgap g.items _ (initInv _ _ _)
    (fun it hit => ⟨hspans it hit, hhts it hit⟩)

theorem reflowCore_out_length (g : Grid) (N : ℕ) :
    (reflowCore g N).2.length = g.items.length := by
  have h := foldl_place_proj g.options.gap (calculateColumnWidth g) N g.items
    (List.replicate N (0 : JsNum), [])
  have h2 := congrArg List.length h
  rw [List.length_map, List.length_append, List.length_map, List.length_map] at h2
  simpa [reflowCore] using h2

theorem reflow_item_bound (g : Grid) (i : ℕ) (d : Item)
    (hn : 1 ≤ numColumnsZ g)
    (hspans : ∀ it ∈ g.items, effSpan it ≤ (numColumnsZ g).toNat)
    (hgap : 0 ≤ g.options.gap)
    (hhts : ∀ it ∈ g.items, 0 ≤ effHeight (calculateColumnWidth g) it)
    (hi : i < g.items.length) :
    ((reflow g).items.getD i d).ty
      + (effHeight (calculateColumnWidth g) ((reflow g).items.getD i d) : JsNum)
      + (g.options.gap : JsNum)
      ≤ (reflow g).containerHeight := by
  obtain ⟨hlen, hpos, hin, hbnd, hno⟩ := reflowCore_inv g hspans hgap hhts
  have hng : ¬ numColumnsZ g < 1 := by omega
  have hitems : (reflow g).items = (reflowCore g (numColumnsZ g).toNat).2.map Prod.snd := by
    rw [reflow, if_neg hng]
  have hheight : (reflow g).containerHeight
      = jsMaxList (reflowCore g (numColumnsZ g).toNat).1 := by
    rw [reflow, if_neg hng]
  have houtlen : i < (reflowCore g (numColumnsZ g).toNat).2.length := by
    rw [reflowCore_out_length]
    exact hi
  set p := (reflowCore g (numColumnsZ g).toNat).2.getD i (0, d) with hp
  have hgetD : (reflow g).items.getD i d = p.2 := by
    rw [hitems, hp]
    exact map_getD_of_lt Prod.snd _ i d (0, d) houtlen
  have hpmem : p ∈ (reflowCore g (numColumnsZ g).toNat).2 := getD_mem_of_lt _ _ _ houtlen
  have hpassign : assignedTo p p.1 := by
    rw [assignedTo]
    have := effSpan_pos p.2
    omega
  have hb := hbnd p hpmem p.1 hpassign
  have hplt : p.1 < (reflowCore g (numColumnsZ g).toNat).1.length := by
    rw [hlen]
    have h1 := hin p hpmem
    have h2 := effSpan_pos p.2
    omega
  have hmax := getD_le_jsMaxList _ _ hplt
  rw [hgetD, hheight]
  exact le_trans (hb.trans hmax) (le_refl _)

theorem mem_modifyIdx {α : Type} (l : List α) (i : ℕ) (f : α → α) :
    ∀ x ∈ modifyIdx l i f, x ∈ l ∨ ∃ y ∈ l, x = f y := by
  induction l generalizing i with
  | nil =>
    intro x hx
    exact absurd hx (by simp [modifyIdx])
  | cons a rest ih =>
    cases i with
    | zero =>
      intro x hx
      rcases List.mem_cons.mp hx with h | h
      · exact Or.inr ⟨a, List.mem_cons_self a rest, h⟩
      · exact Or.inl (List.mem_cons_of_mem a h)
    | succ n =>
      intro x hx
      rcases List.mem_cons.mp hx with h | h
      · exact Or.inl (h ▸ List.mem_cons_self a rest)
      · rcases ih n x h with h1 | ⟨y, hy, hxy⟩
        · exact Or.inl (List.mem_cons_of_mem a h1)
        · exact Or.inr ⟨y, List.mem_cons_of_mem a hy, hxy⟩

theorem effSpan_errReset (g : Grid) (it : Item) : effSpan (errReset g it) = effSpan it := rfl

theorem effHeight_errReset (w : ℚ) (g : Grid) (it d : Item) :
    effHeight w (errReset g it) = effHeight w (errReset g d) := rfl

theorem c6_image_error_layout (g : Grid) (i : ℕ) (d : Item)
    (hi : i < g.items.length)
    (hn : 1 ≤ numColumnsZ g)
    (hgap : 0 ≤ g.options.gap)
    (hspans : ∀ it ∈ g.items, effSpan it ≤ (numColumnsZ g).toNat)
    (hhts : ∀ it ∈ g.items, 0 ≤ effHeight (calculateColumnWidth g) it)
    (hcap : 0 ≤ effHeight (calculateColumnWidth g) (errReset g d)) :
    handleImageError g i = reflow { g with items := modifyIdx g.items i (errReset g) } ∧
    (handleImageError g i).items.length = g.items.length ∧
    ((handleImageError g i).items.getD i d).width = g.capturedColumnWidth ∧
    ((handleImageError g i).items.getD i d).height = g.capturedColumnWidth ∧
    ((handleImageError g i).items.getD i d).ty
      + (effHeight (calculateColumnWidth g) ((handleImageError g i).items.getD i d) : JsNum)
      + (g.options.gap : JsNum)
      ≤ (handleImageError g i).containerHeight := by
  set gU : Grid := { g with items := modifyIdx g.items i (errReset g) } with hgU
  have hULen : gU.items.length = g.items.length := by
    rw [hgU]
    show (modifyIdx g.items i (errReset g)).length = _
    rw [modifyIdx_length]
  have hiU : i < gU.items.length := by rw [hULen]; exact hi
  have hUspans : ∀ it ∈ gU.items, effSpan it ≤ (numColumnsZ gU).toNat := by
    intro it hit
    have hitm : it ∈ modifyIdx g.items i (errReset g) := hit
    rcases mem_modifyIdx g.items i (errReset g) it hitm with h | ⟨y, hy, hxy⟩
    · exact hspans it h
    · rw [hxy, effSpan_errReset]
      exact hspans y hy
  have hUhts : ∀ it ∈ gU.items, 0 ≤ effHeight (calculateColumnWidth gU) it := by
    intro it hit
    have hitm : it ∈ modifyIdx g.items i (errReset g) := hit
    rcases mem_modifyIdx g.items i (errReset g) it hitm with h | ⟨y, hy, hxy⟩
    · exact hhts it h
    · rw [hxy]
      exact le_trans hcap (le_of_eq (effHeight_errReset _ g d y))
  have hgetU : gU.items.getD i d = errReset g (g.items.getD i d) := by
    rw [hgU]
    show (modifyIdx g.items i (errReset g)).getD i d = _
    rw [modifyIdx_getD_self _ _ _ _ hi]
  have hproj := reflow_getD_proj gU i d hiU
  refine ⟨rfl, ?_, ?_, ?_, ?_⟩
  · show (reflow gU).items.length = g.items.length
    rw [reflow_items_length, hULen]
  · show ((reflow gU).items.getD i d).width = g.capturedColumnWidth
    have hw := congrArg (fun t => t.1) hproj
    simp only [projItem] at hw
    rw [hw, hgetU]
    rfl
  · show ((reflow gU).items.getD i d).height = g.capturedColumnWidth
    have hh := congrArg (fun t => t.2.1) hproj
    simp only [projItem] at hh
    rw [hh, hgetU]
    rfl
  · exact reflow_item_bound gU i d hn hUspans hgap hUhts hiU

section
attribute [local semireducible] Rat.add Rat.mul Rat.inv Rat.sub Rat.ofScientific

/-- C1: reflow() places items by the greedy shortest-column rule: in input
order, each item is placed at the first legal start column minimizing the
maximum cumulative height over its spanned columns, at x equal to that
column times columnWidth plus gap and y equal to that maximum; every
spanned column is raised to y plus itemHeight plus gap, and the container
height becomes the tallest column. In particular five square span-1 items
in three columns land in columns 0, 1, 2, 0, 1. -/
theorem c1_reflow_greedy_shortest_column :
    (∀ g : Grid, 1 ≤ numColumnsZ g →
      (∀ it ∈ g.items, effSpan it ≤ (numColumnsZ g).toNat) →
      reflow g = reflowSpec g) ∧
    numColumnsZ demoGrid = 3 ∧
    (reflowCore demoGrid (numColumnsZ demoGrid).toNat).2.map Prod.fst = [0, 1, 2, 0, 1] := by
  refine ⟨fun g h1 h2 => reflow_eq_reflowSpec g h1 h2, by decide, by decide⟩

/-- C1 witness: the hypotheses hold for the five-square grid and the
theorem applies there. -/
theorem c1_witness :
    (1 ≤ numColumnsZ demoGrid ∧
      ∀ it ∈ demoGrid.items, effSpan it ≤ (numColumnsZ demoGrid).toNat) ∧
    reflow demoGrid = reflowSpec demoGrid :=
  ⟨⟨by decide, by decide⟩,
    c1_reflow_greedy_shortest_column.1 demoGrid (by decide) (by decide)⟩

/-- C2 counterexample: with a span-2 item bridging columns of unequal
height, column 1 records 190 while the sum of heights plus gaps of the
items assigned to it is 70, so the claimed equality fails. -/
theorem c2_counterexample :
    (reflowCore c2Grid (numColumnsZ c2Grid).toNat).1.getD 1 0 = ((190 : ℚ) : JsNum) ∧
    colSum c2Grid.options.gap (calculateColumnWidth c2Grid)
      (reflowCore c2Grid (numColumnsZ c2Grid).toNat).2 1 = ((70 : ℚ) : JsNum) ∧
    ¬ ((reflowCore c2Grid (numColumnsZ c2Grid).toNat).1.getD 1 0
        = colSum c2Grid.options.gap (calculateColumnWidth c2Grid)
            (reflowCore c2Grid (numColumnsZ c2Grid).toNat).2 1) := by
  refine ⟨by decide, by decide, by decide⟩

/-- C2 as amended: after reflow no two items assigned to the same column
overlap vertically, and when every item spans a single column each
column's recorded cumulative height equals the sum of item height plus gap
over the items assigned to it. -/
theorem c2_no_overlap_and_span1_sums (g : Grid)
    (hn : 1 ≤ numColumnsZ g)
    (hspans : ∀ it ∈ g.items, effSpan it ≤ (numColumnsZ g).toNat)
    (hgap : 0 ≤ g.options.gap)
    (hhts : ∀ it ∈ g.items, 0 ≤ effHeight (calculateColumnWidth g) it) :
    NoOverlap g.options.gap (calculateColumnWidth g)
      (reflowCore g (numColumnsZ g).toNat).2 ∧
    ((∀ it ∈ g.items, effSpan it = 1) →
      ∀ c, c < (numColumnsZ g).toNat →
        (reflowCore g (numColumnsZ g).toNat).1.getD c 0
          = colSum g.options.gap (calculateColumnWidth g)
              (reflowCore g (numColumnsZ g).toNat).2 c) := by
  constructor
  · exact (reflowCore_inv g hspans hgap hhts).2.2.2.2
  · intro hall1 c hc
    rw [reflowCore]
    exact foldl_place_sum g.options.gap (calculateColumnWidth g) (numColumnsZ g).toNat
      hgap (by omega) g.items _ (initInv _ _ _)
      (fun it hit => ⟨hall1 it hit, hhts it hit⟩)
      (fun c' hc' => by rw [getD_replicate]; rfl) c hc

/-- C2 witness: the amended theorem applies to the five-square grid. -/
theorem c2_witness :
    NoOverlap demoGrid.options.gap (calculateColumnWidth demoGrid)
      (reflowCore demoGrid (numColumnsZ demoGrid).toNat).2 :=
  (c2_no_overlap_and_span1_sums demoGrid (by decide) (by decide) (by decide) (by decide)).1

/-- C3 counterexample: at container width 100 with base 250 and gap 20 the
code computes zero columns, not the claimed minimum of one, and reflow
returns without laying anything out. -/
theorem c3_counterexample :
    numColumnsZ narrowGrid = 0 ∧ columnsClaim narrowGrid = 1 ∧
    numColumnsZ narrowGrid ≠ columnsClaim narrowGrid ∧
    reflow narrowGrid = narrowGrid := by
  refine ⟨by decide, by decide, by decide, by decide⟩

/-- C3 as amended: when the floor count is at least one the column count
reflow uses equals it and columns times columnWidth plus the gaps fills
the container exactly; when it is below one, calculateColumnWidth falls
back to the base width and reflow returns unchanged. -/
theorem c3_columns_fill_or_noop (g : Grid)
    (hpos : 0 < g.options.baseColumnWidth + g.options.gap) :
    (1 ≤ minColumnsZ g →
      1 ≤ numColumnsZ g ∧
      (numColumnsZ g : ℚ) * calculateColumnWidth g
        + ((numColumnsZ g : ℚ) - 1) * g.options.gap = g.containerWidth) ∧
    (minColumnsZ g < 1 →
      calculateColumnWidth g = g.options.baseColumnWidth ∧ reflow g = g) := by
  constructor
  · intro hm
    obtain ⟨h1, h2⟩ := columnWidth_fill g hpos hm
    rw [h1]
    exact ⟨by omega, h2⟩
  · intro hm
    obtain ⟨h1, _, h3⟩ := reflow_noop_of_narrow g hm
    exact ⟨h1, h3⟩

/-- C3 witness: at container width 1000, base 250 and gap 20 the theorem
gives three columns and an exact fill, the spec scenario. -/
theorem c3_witness :
    (0 < fillGrid.options.baseColumnWidth + fillGrid.options.gap ∧
      1 ≤ minColumnsZ fillGrid) ∧
    (1 ≤ numColumnsZ fillGrid ∧
      (numColumnsZ fillGrid : ℚ) * calculateColumnWidth fillGrid
        + ((numColumnsZ fillGrid : ℚ) - 1) * fillGrid.options.gap
        = fillGrid.containerWidth) :=
  ⟨⟨by decide, by decide⟩, (c3_columns_fill_or_noop fillGrid (by decide)).1 (by decide)⟩

/-- C4: the stored span of an item loaded at aspect 3 while three columns
existed stays 3 after a resize to two columns, violating the claimed
invariant; the next reflow then places the item at y equal to Infinity. -/
theorem c4_span_survives_resize :
    numColumnsZ c4Resized.grid = 2 ∧
    (c4Resized.grid.items.getD 0 dItem).columnSpan = 3 ∧
    ¬ ((c4Resized.grid.items.getD 0 dItem).columnSpan
        ≤ (numColumnsZ c4Resized.grid).toNat) ∧
    (c4Resized.grid.items.getD 0 dItem).ty = ⊤ := by
  refine ⟨by decide, by decide, by decide, by decide⟩

/-- C5 counterexample: with zero columns (container narrower than a base
column) a square image keeps the default span 1, while the claimed rule
capped in every case would give 0. -/
theorem c5_counterexample :
    numColumnsZ narrowGrid = 0 ∧
    ((handleImageLoad narrowGrid 0 100 100).items.getD 0 dItem).columnSpan = 1 ∧
    spanClaim (((100 : ℕ) : ℚ) / ((100 : ℕ) : ℚ)) (numColumnsZ narrowGrid) = 0 ∧
    ¬ ((((handleImageLoad narrowGrid 0 100 100).items.getD 0 dItem).columnSpan : ℤ)
        = spanClaim (((100 : ℕ) : ℚ) / ((100 : ℕ) : ℚ)) (numColumnsZ narrowGrid)) := by
  refine ⟨by decide, by decide, by decide, by decide⟩

/-- C5 as amended: a loaded image with positive natural height gets span 3
when its aspect exceeds 2.5 with at least three columns, else min 2
numColumns when the aspect exceeds 1.7, else an uncapped default of 1; the
span never exceeds the column count whenever at least one column exists. -/
theorem c5_span_rule (g : Grid) (i : ℕ) (nw nh : ℕ) (d : Item)
    (hi : i < g.items.length) (hnh : 0 < nh) :
    ((handleImageLoad g i nw nh).items.getD i d).columnSpan
      = (spanRule ((nw : ℚ) / (nh : ℚ)) (numColumnsZ g)).toNat ∧
    (1 ≤ numColumnsZ g →
      ((handleImageLoad g i nw nh).items.getD i d).columnSpan
        ≤ (numColumnsZ g).toNat) := by
  have h := handleImageLoad_span g i nw nh d hi hnh
  refine ⟨h, fun hn => ?_⟩
  rw [h]
  exact spanRule_le _ _ hn

/-- C5 witness: a 300 by 100 image in the three-column grid gets the span
the rule gives, namely 3. -/
theorem c5_witness :
    (0 < wideGrid.items.length ∧ 0 < 100) ∧
    ((handleImageLoad wideGrid 0 300 100).items.getD 0 dItem).columnSpan
      = (spanRule (((300 : ℕ) : ℚ) / ((100 : ℕ) : ℚ)) (numColumnsZ wideGrid)).toNat :=
  ⟨⟨by decide, by decide⟩, (c5_span_rule wideGrid 0 300 100 dItem (by decide) (by decide)).1⟩

/-- C6 counterexample: at the spec scenario width 1000 (base 250, gap 20)
the addItems closure captures columnWidth 320, so after a load failure the
item's square footprint is 320 by 320, not the claimed base-column-width
square of 250. -/
theorem c6_counterexample :
    calculateColumnWidth fillGrid = 320 ∧
    c6WideAdded.capturedColumnWidth = 320 ∧
    (c6WideErred.items.getD 0 dItem).width = 320 ∧
    (c6WideErred.items.getD 0 dItem).height = 320 ∧
    fillGrid.options.baseColumnWidth = 250 ∧
    (c6WideErred.items.getD 0 dItem).width ≠ fillGrid.options.baseColumnWidth := by
  refine ⟨by decide, by decide, by decide, by decide, by decide, by decide⟩

/-- C6 as amended: an item whose image fails to load keeps the square
footprint at the columnWidth the addItems closure captured (the responsive
calculateColumnWidth value, not the base column width), a reflow still
runs, the item stays in the layout, and the container height covers its
bottom edge. -/
theorem c6_image_error_kept (g : Grid) (i : ℕ) (d : Item)
    (hi : i < g.items.length)
    (hn : 1 ≤ numColumnsZ g)
    (hgap : 0 ≤ g.options.gap)
    (hspans : ∀ it ∈ g.items, effSpan it ≤ (numColumnsZ g).toNat)
    (hhts : ∀ it ∈ g.items, 0 ≤ effHeight (calculateColumnWidth g) it)
    (hcap : 0 ≤ effHeight (calculateColumnWidth g) (errReset g d)) :
    handleImageError g i = reflow { g with items := modifyIdx g.items i (errReset g) } ∧
    (handleImageError g i).items.length = g.items.length ∧
    ((handleImageError g i).items.getD i d).width = g.capturedColumnWidth ∧
    ((handleImageError g i).items.getD i d).height = g.capturedColumnWidth ∧
    ((handleImageError g i).items.getD i d).ty
      + (effHeight (calculateColumnWidth g) ((handleImageError g i).items.getD i d) : JsNum)
      + (g.options.gap : JsNum)
      ≤ (handleImageError g i).containerHeight :=
  c6_image_error_layout g i d hi hn hgap hspans hhts hcap

/-- C6 witness: the amended theorem applies to the card of the 1000 px
grid, where the captured columnWidth 320 differs from the base width. -/
theorem c6_witness :
    (0 < c6WideAdded.items.length ∧ 1 ≤ numColumnsZ c6WideAdded) ∧
    ((handleImageError c6WideAdded 0).items.getD 0 dItem).width
      = c6WideAdded.capturedColumnWidth ∧
    ((handleImageError c6WideAdded 0).items.getD 0 dItem).height
      = c6WideAdded.capturedColumnWidth := by
  have h := c6_image_error_kept c6WideAdded 0 dItem (by decide) (by decide) (by decide)
    (by decide) (by decide) (by decide)
  exact ⟨⟨by decide, by decide⟩, h.2.2.1, h.2.2.2.1⟩

/-- C7 counterexample: with the container element absent, addItems and
clear throw a TypeError instead of completing silently. -/
theorem c7_counterexample :
    addItemsJS (construct none none none) 1 = .error .typeError ∧
    clearJS (construct none none none) = .error .typeError :=
  ⟨rfl, rfl⟩

/-- C7 as amended: construction with a missing container logs and no-ops
without throwing, every operation on a live grid completes without
throwing, but addItems, reflow and clear on a container-less grid throw a
TypeError. -/
theorem c7_no_throw_amended :
    (∀ cw? gap?, construct none cw? gap? = .noContainer (mkOptions cw? gap?)) ∧
    (∀ (g : Grid) (n : ℕ), ∃ g', addItemsJS (.live g) n = .ok g') ∧
    (∀ g : Grid, ∃ g', reflowJS (.live g) = .ok g') ∧
    (∀ g : Grid, ∃ g', clearJS (.live g) = .ok g') ∧
    (∀ (o : Options) (n : ℕ), addItemsJS (.noContainer o) n = .error .typeError) ∧
    (∀ o : Options, reflowJS (.noContainer o) = .error .typeError) ∧
    (∀ o : Options, clearJS (.noContainer o) = .error .typeError) :=
  ⟨fun _ _ => rfl, fun _g _n => ⟨_, rfl⟩, fun _g => ⟨_, rfl⟩, fun _g => ⟨_, rfl⟩,
    fun _ _ => rfl, fun _ => rfl, fun _ => rfl⟩

/-- C8 counterexample: destroy does not cancel a pending debounced reflow;
after a resize then destroy the schedule is still pending and firing it
still runs reflow, resetting the recorded container height from 100 to 0. -/
theorem c8_counterexample :
    (destroy (resizeEvent c8Comp 790)).pendingReflow = true ∧
    (destroy (resizeEvent c8Comp 790)).grid.containerHeight = ((100 : ℚ) : JsNum) ∧
    (debounceFire (destroy (resizeEvent c8Comp 790))).grid.containerHeight
      = ((0 : ℚ) : JsNum) ∧
    debounceFire (destroy (resizeEvent c8Comp 790)) ≠ destroy (resizeEvent c8Comp 790) := by
  refine ⟨by decide, by decide, by decide, by decide⟩

/-- C8 as amended: destroy is idempotent and detaches the resize listener,
so no new reflow gets scheduled afterwards, but it leaves an already
pending debounced reflow in place. -/
theorem c8_destroy_amended :
    (∀ c : Component, destroy (destroy c) = destroy c) ∧
    (∀ c : Component, (destroy c).listenerAttached = false) ∧
    (∀ (c : Component) (w : ℚ), (resizeEvent (destroy c) w).pendingReflow = c.pendingReflow) ∧
    (∀ c : Component, (destroy c).pendingReflow = c.pendingReflow) :=
  ⟨fun _c => rfl, fun _c => rfl, fun _c _w => rfl, fun _c => rfl⟩

/-- C9: calling reflow twice with no intervening state change leaves the
grid exactly as after the first call: identical positions and identical
container height. -/
theorem c9_reflow_idempotent (g : Grid) : reflow (reflow g) = reflow g :=
  reflow_reflow g

/-- C10: reflow changes only item positions and the container height; the
item list keeps its length and order and every item keeps its width,
height and column span, and the other grid fields are untouched. -/
theorem c10_reflow_frame (g : Grid) :
    (reflow g).items.map projItem = g.items.map projItem ∧
    (reflow g).items.length = g.items.length ∧
    (reflow g).containerWidth = g.containerWidth ∧
    (reflow g).options = g.options ∧
    (reflow g).capturedColumnWidth = g.capturedColumnWidth ∧
    (reflow g).loadedImages = g.loadedImages :=
  ⟨reflow_proj g, reflow_items_length g, (reflow_fields g).1, (reflow_fields g).2.1,
    (reflow_fields g).2.2.1, (reflow_fields g).2.2.2⟩

end

end MosaicGrid
